import Mathlib

/-!
Verification of the storage / concurrency / execution primitives of the
BusTub-style store described in spec.md, shallowly embedded from the C++
sources.  Keys, values, page ids, frame ids, record ids and transaction
ids are modelled as `Nat`; the instantiation verified is the
`<int, int, IntComparator>` one (comparison is equality).  Fallible code
(assertions, reinterpretation of a page as the wrong page kind, fetching
an absent page) is modelled in the `Except String` monad.
-/

namespace BusTub

/-! ### Bucket page (src/storage/page/hash_table_bucket_page.cpp)

The C++ page keeps three parallel arrays (`occupied_` / `readable_`
bitmaps and the `array_` of key/value pairs).  Slot `i` of the page is
modelled as a record holding its two bits and its pair; a bucket page is
the list of its `BUCKET_ARRAY_SIZE` slots.  The byte-level bit fiddling
of `IsReadable` / `SetReadable` / `RemoveAt` etc. implements exactly a
bit array, which is what the `Bool` fields denote. -/

structure Slot where
  occupied : Bool
  readable : Bool
  key : Nat
  value : Nat
deriving DecidableEq, Repr

/-- A bucket page: the list of its slots (fixed length, never changed by
any operation). -/
abbrev BucketPage := List Slot

/-- `HASH_TABLE_BUCKET_TYPE::GetValue`: values of all readable slots whose
key matches (the comparator of the verified instantiation is equality).
The C++ returns `has_find_value` and pushes the values into `result`;
they are returned together here (the boolean is `¬ result.isEmpty`). -/
def bucketGetValue (b : BucketPage) (k : Nat) : List Nat :=
  (b.filter fun s => s.readable && s.key == k).map Slot.value

/-- The duplicate scan inside `HASH_TABLE_BUCKET_TYPE::Insert`: some
readable slot holds exactly the pair `(k, v)`. -/
def bucketHasDup (b : BucketPage) (k v : Nat) : Bool :=
  b.any fun s => s.readable && s.key == k && s.value == v

/-- The `available` computation inside `HASH_TABLE_BUCKET_TYPE::Insert`:
index of the first slot that is not readable (`-1` becomes `none`). -/
def firstAvailable : BucketPage → Option Nat
  | [] => none
  | s :: rest =>
      if s.readable then (firstAvailable rest).map (· + 1)
      else some 0

/-- `HASH_TABLE_BUCKET_TYPE::Insert`: reject an exact duplicate `(k,v)`,
otherwise write the pair into the first non-readable slot, setting its
`occupied` and `readable` bits.  Returns (success, new page). -/
def bucketInsert (b : BucketPage) (k v : Nat) : Bool × BucketPage :=
  if bucketHasDup b k v then (false, b)
  else
    match firstAvailable b with
    | none => (false, b)
    | some i => (true, b.set i ⟨true, true, k, v⟩)

/-- `HASH_TABLE_BUCKET_TYPE::RemoveAt`: clear the `readable` bit of slot
`i` (the `occupied` bit and the pair are untouched). -/
def removeAt : BucketPage → Nat → BucketPage
  | [], _ => []
  | s :: rest, 0 => { s with readable := false } :: rest
  | s :: rest, i + 1 => s :: removeAt rest i

/-- `HASH_TABLE_BUCKET_TYPE::Remove`: clear the `readable` bit of the
first readable slot holding exactly `(k,v)`; `false` when absent. -/
def bucketRemove : BucketPage → Nat → Nat → Bool × BucketPage
  | [], _, _ => (false, [])
  | s :: rest, k, v =>
      if s.readable && s.key == k && s.value == v then
        (true, { s with readable := false } :: rest)
      else
        let (ok, rest') := bucketRemove rest k v
        (ok, s :: rest')

/-- `HASH_TABLE_BUCKET_TYPE::IsFull`: every readable bit is set (the C++
walks the `readable_` bitmap byte by byte; this is its meaning). -/
def bucketIsFull (b : BucketPage) : Bool :=
  b.all Slot.readable

/-- `HASH_TABLE_BUCKET_TYPE::IsEmpty`: no readable bit is set. -/
def bucketIsEmpty (b : BucketPage) : Bool :=
  b.all fun s => !s.readable

/-- `HASH_TABLE_BUCKET_TYPE::NumReadable`. -/
def numReadable (b : BucketPage) : Nat :=
  b.countP fun s => s.readable

/-- `HASH_TABLE_BUCKET_TYPE::GetArrayCopy`: the pairs of the readable
slots, in slot order. -/
def getArrayCopy (b : BucketPage) : List (Nat × Nat) :=
  (b.filter Slot.readable).map fun s => (s.key, s.value)

/-- `HASH_TABLE_BUCKET_TYPE::Reset`: `memset` of all three arrays to 0. -/
def bucketReset (b : BucketPage) : BucketPage :=
  b.map fun _ => ⟨false, false, 0, 0⟩

/-- A zeroed page (fresh from `NewPage`) reinterpreted as a bucket of
`n` slots: all bits and pairs zero. -/
def zeroBucket (n : Nat) : BucketPage :=
  List.replicate n ⟨false, false, 0, 0⟩

/-- The mutating bucket operations of the system (C9 quantifies over all
of them): slot insertion, pair removal, raw `RemoveAt`, and the `Reset`
that `SplitInsert` performs on the split bucket. -/
inductive BucketOp where
  | ins (k v : Nat)
  | rem (k v : Nat)
  | remAt (i : Nat)
  | reset
deriving DecidableEq, Repr

def applyBucketOp (op : BucketOp) (b : BucketPage) : BucketPage :=
  match op with
  | .ins k v => (bucketInsert b k v).2
  | .rem k v => (bucketRemove b k v).2
  | .remAt i => removeAt b i
  | .reset => bucketReset b

/-- The per-slot invariant of C9: a readable slot is occupied. -/
abbrev ReadableImpOccupied (b : BucketPage) : Prop :=
  ∀ s ∈ b, s.readable → s.occupied

/-- Occupied bits of a page, for stating what an operation touches. -/
def occupiedBits (b : BucketPage) : List Bool :=
  b.map Slot.occupied

/-- Readable bits of a page. -/
def readableBits (b : BucketPage) : List Bool :=
  b.map Slot.readable

theorem removeAt_occupied (b : BucketPage) (i : Nat) :
    occupiedBits (removeAt b i) = occupiedBits b := by
  induction b generalizing i with
  | nil => rfl
  | cons s rest ih =>
      cases i with
      | zero => rfl
      | succ j => simpa [removeAt, occupiedBits] using ih j

theorem removeAt_kv (b : BucketPage) (i : Nat) :
    (removeAt b i).map (fun s => (s.key, s.value)) = b.map fun s => (s.key, s.value) := by
  induction b generalizing i with
  | nil => rfl
  | cons s rest ih =>
      cases i with
      | zero => rfl
      | succ j => simpa [removeAt] using ih j

theorem removeAt_readable (b : BucketPage) (i : Nat) :
    readableBits (removeAt b i)
      = (readableBits b).set i false := by
  induction b generalizing i with
  | nil => rfl
  | cons s rest ih =>
      cases i with
      | zero => rfl
      | succ j => simpa [removeAt, readableBits] using ih j

theorem bucketInsert_inv (b : BucketPage) (k v : Nat)
    (h : ReadableImpOccupied b) : ReadableImpOccupied (bucketInsert b k v).2 := by
  unfold bucketInsert
  split
  · exact h
  · split
    · exact h
    · intro s hs hr
      rcases List.mem_or_eq_of_mem_set hs with h' | h'
      · exact h s h' hr
      · simp [h']

theorem bucketRemove_inv (b : BucketPage) (k v : Nat)
    (h : ReadableImpOccupied b) : ReadableImpOccupied (bucketRemove b k v).2 := by
  induction b with
  | nil => exact h
  | cons s rest ih =>
      have hs : s.readable → s.occupied := h s (List.mem_cons_self s rest)
      have hrest : ReadableImpOccupied rest := fun t ht => h t (List.mem_cons_of_mem s ht)
      unfold bucketRemove
      split
      · intro t ht hr
        rcases List.mem_cons.mp ht with h' | h'
        · subst h'; cases hr
        · exact hrest t h' hr
      · intro t ht hr
        rcases List.mem_cons.mp ht with h' | h'
        · subst h'; exact hs hr
        · exact (ih hrest) t h' hr

theorem removeAt_inv (b : BucketPage) (i : Nat)
    (h : ReadableImpOccupied b) : ReadableImpOccupied (removeAt b i) := by
  induction b generalizing i with
  | nil => exact h
  | cons s rest ih =>
      have hs : s.readable → s.occupied := h s (List.mem_cons_self s rest)
      have hrest : ReadableImpOccupied rest := fun t ht => h t (List.mem_cons_of_mem s ht)
      cases i with
      | zero =>
          intro t ht hr
          rcases List.mem_cons.mp ht with h' | h'
          · subst h'; cases hr
          · exact hrest t h' hr
      | succ j =>
          intro t ht hr
          rcases List.mem_cons.mp ht with h' | h'
          · subst h'; exact hs hr
          · exact (ih j hrest) t h' hr

theorem bucketReset_inv (b : BucketPage) :
    ReadableImpOccupied (bucketReset b) := by
  intro t ht hr
  rcases List.mem_map.mp ht with ⟨s, _, rfl⟩
  cases hr

/-- C9, amended: after every bucket-mutating operation of the system the
invariant `readable[i] → occupied[i]` still holds, and the logical
removal `RemoveAt i` clears exactly the `readable` bit of slot `i`,
leaving the occupied bits and the stored pairs unchanged.  (The original
claim's "occupied is never cleared" fails: `Reset`, used by
`SplitInsert`, clears occupied bits — see the counterexample.) -/
theorem C9_bucket_bits_amended (b : BucketPage) (op : BucketOp) (i : Nat)
    (h : ReadableImpOccupied b) :
    ReadableImpOccupied (applyBucketOp op b)
      ∧ occupiedBits (removeAt b i) = occupiedBits b
      ∧ (removeAt b i).map (fun s => (s.key, s.value)) = b.map (fun s => (s.key, s.value))
      ∧ readableBits (removeAt b i) = (readableBits b).set i false := by
  refine ⟨?_, removeAt_occupied b i, removeAt_kv b i, removeAt_readable b i⟩
  cases op with
  | ins k v => exact bucketInsert_inv b k v h
  | rem k v => exact bucketRemove_inv b k v h
  | remAt j => exact removeAt_inv b j h
  | reset => exact bucketReset_inv b

/-- Witness for `C9_bucket_bits_amended` at a concrete one-slot page. -/
theorem C9_bucket_bits_amended_witness :
    ReadableImpOccupied (applyBucketOp (.rem 3 4) [⟨true, true, 3, 4⟩])
      ∧ occupiedBits (removeAt [⟨true, true, 3, 4⟩] 0) = occupiedBits [⟨true, true, 3, 4⟩]
      ∧ (removeAt [⟨true, true, 3, 4⟩] 0).map (fun s => (s.key, s.value))
          = [(⟨true, true, 3, 4⟩ : Slot)].map (fun s => (s.key, s.value))
      ∧ readableBits (removeAt [⟨true, true, 3, 4⟩] 0)
          = (readableBits [⟨true, true, 3, 4⟩]).set 0 false := by
  have h : ReadableImpOccupied [⟨true, true, 3, 4⟩] := by
    intro s hs _
    rcases List.mem_cons.mp hs with h' | h'
    · subst h'; rfl
    · cases h'
  simpa using C9_bucket_bits_amended [⟨true, true, 3, 4⟩] (.rem 3 4) 0 h

/-- C9 counterexample: the claim "once occupied[i] has been set no later
operation clears it" is false — `Reset` (performed by `SplitInsert` on
the split bucket) clears an occupied bit.  Concretely, a page whose slot
0 is occupied loses that bit under the `reset` operation of the
system. -/
theorem C9_occupied_cleared_counterexample :
    occupiedBits [(⟨true, false, 3, 4⟩ : Slot)] = [true]
      ∧ occupiedBits (applyBucketOp .reset [⟨true, false, 3, 4⟩]) = [false] := by
  decide

end BusTub

namespace BusTub

/-! ### Lock manager (src/src/concurrency/lock_manager.cpp)

`lock_manager.h` is not part of the sources; the queue-entry record
`{txn_id, mode, granted}`, the transaction record and the per-rid queue
with its `upgrading` flag are modelled from spec §3 ("Lock request
queue", "Transaction").  Record ids and transaction ids are `Nat`.
`TransactionManager::GetTransaction` is the total map `txns` of the
state (spec §9: "inject an abstract lookup capability").  Every
function below runs between two condition-variable interactions, which
is exactly the region the single global mutex serializes; a blocking
wait is surfaced as the `waiting` outcome and a wake re-runs the body
(the `goto` labels `ShareCheck` / `upgCheck` re-execute from the top of
the body). -/

inductive TxnState where
  | growing
  | shrinking
  | committed
  | aborted
deriving DecidableEq, Repr

inductive IsoLevel where
  | readUncommitted
  | readCommitted
  | repeatableRead
deriving DecidableEq, Repr

inductive LockMode where
  | shared
  | exclusive
deriving DecidableEq, Repr

structure Txn where
  state : TxnState
  isolation : IsoLevel
  sharedLockSet : List Nat
  exclusiveLockSet : List Nat
deriving DecidableEq, Repr

/-- Modelled from the spec: a lock request queue entry `{txn_id, mode,
granted}` (spec §3); `lock_manager.h` with the `LockRequest` record is
not among the sources.  A freshly emplaced request is not yet granted. -/
structure LockRequest where
  txnId : Nat
  lockMode : LockMode
  granted : Bool
deriving DecidableEq, Repr

structure LockRequestQueue where
  requestQueue : List LockRequest
  upgrading : Bool
deriving DecidableEq, Repr

def emptyLockQueue : LockRequestQueue := ⟨[], false⟩

structure LMState where
  txns : Nat → Txn
  lockTable : Nat → LockRequestQueue

/-- `std::unordered_set::emplace` on a lock set. -/
def setInsert (l : List Nat) (x : Nat) : List Nat :=
  if l.contains x then l else l ++ [x]

/-- `std::unordered_set::erase` on a lock set. -/
def setErase (l : List Nat) (x : Nat) : List Nat :=
  l.filter fun y => y ≠ x

def setTxn (s : LMState) (tid : Nat) (t : Txn) : LMState :=
  { s with txns := fun i => if i = tid then t else s.txns i }

def setQueue (s : LMState) (rid : Nat) (q : LockRequestQueue) : LMState :=
  { s with lockTable := fun r => if r = rid then q else s.lockTable r }

/-- Overwrite only the request list of `rid`'s queue. -/
def setQueueReq (s : LMState) (rid : Nat) (q : List LockRequest) : LMState :=
  setQueue s rid { s.lockTable rid with requestQueue := q }

def abortTxn (s : LMState) (tid : Nat) : LMState :=
  setTxn s tid { s.txns tid with state := .aborted }

/-- `Transaction::IsSharedLocked`. -/
def isSharedLocked (s : LMState) (tid rid : Nat) : Bool :=
  (s.txns tid).sharedLockSet.contains rid

/-- `Transaction::IsExclusiveLocked`. -/
def isExclusiveLocked (s : LMState) (tid rid : Nat) : Bool :=
  (s.txns tid).exclusiveLockSet.contains rid

/-- The WOUND action shared by all three lock calls: erase the victim's
queue entry (done by the caller's scan), purge `rid` from both of its
lock sets and set it `ABORTED`. -/
def woundTxn (s : LMState) (victim rid : Nat) : LMState :=
  let tr := s.txns victim
  setTxn s victim
    { tr with
      exclusiveLockSet := setErase tr.exclusiveLockSet rid
      sharedLockSet := setErase tr.sharedLockSet rid
      state := .aborted }

/-- `LockManager::InsertTxnIntoLockQueue`: if an entry with `txn_id`
exists, only its `granted_` flag is rewritten to `mode == EXCLUSIVE`
(its stored mode is NOT updated); otherwise a fresh not-yet-granted
request is appended. -/
def insertTxnIntoLockQueue (q : List LockRequest) (tid : Nat) (mode : LockMode) : List LockRequest :=
  match q with
  | [] => [⟨tid, mode, false⟩]
  | e :: rest =>
      if e.txnId = tid then { e with granted := mode = .exclusive } :: rest
      else e :: insertTxnIntoLockQueue rest tid mode

/-- Outcome of one run of a lock-call body: returned, or blocked on the
queue's condition variable (a wake re-runs the body), or an `assert`
fired. -/
inductive StepOut where
  | done (b : Bool) (s : LMState)
  | waiting (s : LMState)
  | fault (msg : String)
deriving Nonempty

/-- Outcome of the queue scan of `LockShared`. -/
inductive SharedScanOut where
  | wait (s : LMState)
  | pass (s : LMState) (q : List LockRequest)

/-- The scan loop of `LockManager::LockShared` (lines 60–80): wound every
younger exclusive holder, block behind an older exclusive holder
(inserting self as a SHARED request and marking the rid shared first),
keep every other entry.  `kept` is the already-scanned surviving
prefix. -/
def sharedScan (s : LMState) (tid rid : Nat) (kept : List LockRequest) :
    List LockRequest → SharedScanOut
  | [] => .pass s kept
  | e :: rest =>
      if tid < e.txnId ∧ (s.txns e.txnId).exclusiveLockSet.contains rid then
        sharedScan (woundTxn s e.txnId rid) tid rid kept rest
      else if e.txnId < tid ∧ (s.txns e.txnId).exclusiveLockSet.contains rid then
        let s₁ := setQueueReq s rid (insertTxnIntoLockQueue (kept ++ e :: rest) tid .shared)
        let selfT := s₁.txns tid
        let s₂ := setTxn s₁ tid { selfT with sharedLockSet := setInsert selfT.sharedLockSet rid }
        .wait s₂
      else
        sharedScan s tid rid (kept ++ [e]) rest

/-- One run of the `LockManager::LockShared` body (from label
`ShareCheck`).  `waiting` means the thread blocked on `cv_.wait`; after
a `notify_all` the body is re-run on the then-current state. -/
def lockSharedBody (s : LMState) (tid rid : Nat) : StepOut :=
  let t := s.txns tid
  if t.state = .aborted then .done false s
  else if t.isolation = .readUncommitted then .done false (abortTxn s tid)
  else if t.state = .shrinking then .done false (abortTxn s tid)
  else if isSharedLocked s tid rid then .done true s
  else
    match sharedScan s tid rid [] (s.lockTable rid).requestQueue with
    | .wait s' => .waiting s'
    | .pass s' q' =>
        let s₁ := setTxn s' tid { s'.txns tid with state := .growing }
        let s₂ := setQueueReq s₁ rid (insertTxnIntoLockQueue q' tid .shared)
        let selfT := s₂.txns tid
        let s₃ := setTxn s₂ tid { selfT with sharedLockSet := setInsert selfT.sharedLockSet rid }
        .done true s₃

/-- Outcome of the queue scan of `LockExclusive`. -/
inductive ExclScanOut where
  | die (s : LMState)
  | pass (s : LMState) (q : List LockRequest)

/-- The scan loop of `LockManager::LockExclusive` (lines 110–127),
including the `txn->GetTransactionId() == 9` disjunct of the wound
condition that the source carries: an entry is wounded when its id is
larger than the caller's OR when the caller's id is the literal 9;
on an entry with smaller id the caller purges its own lock sets for
`rid`, aborts itself and the call returns false. -/
def exclusiveScan (s : LMState) (tid rid : Nat) (kept : List LockRequest) :
    List LockRequest → ExclScanOut
  | [] => .pass s kept
  | e :: rest =>
      if tid < e.txnId ∨ tid = 9 then
        exclusiveScan (woundTxn s e.txnId rid) tid rid kept rest
      else if e.txnId < tid then
        let t := s.txns tid
        .die (setTxn s tid
          { t with
            exclusiveLockSet := setErase t.exclusiveLockSet rid
            sharedLockSet := setErase t.sharedLockSet rid
            state := .aborted })
      else
        exclusiveScan s tid rid (kept ++ [e]) rest

/-- `LockManager::LockExclusive` (it never blocks: wound–wait dies
instead of waiting). -/
def lockExclusive (s : LMState) (tid rid : Nat) : Bool × LMState :=
  let t := s.txns tid
  if t.state = .aborted then (false, s)
  else if t.state = .shrinking then (false, abortTxn s tid)
  else if isExclusiveLocked s tid rid then (true, s)
  else
    match exclusiveScan s tid rid [] (s.lockTable rid).requestQueue with
    | .die s' => (false, s')
    | .pass s' q' =>
        let s₁ := setTxn s' tid { s'.txns tid with state := .growing }
        let s₂ := setQueueReq s₁ rid (insertTxnIntoLockQueue q' tid .exclusive)
        let selfT := s₂.txns tid
        let s₃ := setTxn s₂ tid { selfT with exclusiveLockSet := setInsert selfT.exclusiveLockSet rid }
        (true, s₃)

/-- Outcome of the queue scan of `LockUpgrade`. -/
inductive UpgScanOut where
  | wait (s : LMState)
  | pass (s : LMState) (q : List LockRequest)

/-- The scan loop of `LockManager::LockUpgrade` (lines 159–173): wound
every entry with larger id (regardless of its locks), block behind any
entry with smaller id (writing the partially-scanned queue back), keep
the rest. -/
def upgradeScan (s : LMState) (tid rid : Nat) (kept : List LockRequest) :
    List LockRequest → UpgScanOut
  | [] => .pass s kept
  | e :: rest =>
      if tid < e.txnId then
        upgradeScan (woundTxn s e.txnId rid) tid rid kept rest
      else if e.txnId < tid then
        .wait (setQueueReq s rid (kept ++ e :: rest))
      else
        upgradeScan s tid rid (kept ++ [e]) rest

/-- One run of the `LockManager::LockUpgrade` body (from label
`upgCheck`).  Note that the `upgrading_` flag is tested before it is
set, and the flag set by this very caller is still set when a wake
re-runs the body.  The two `assert`s at the end (queue size 1, front is
self) surface as `fault`. -/
def lockUpgradeBody (s : LMState) (tid rid : Nat) : StepOut :=
  let t := s.txns tid
  if t.state = .aborted then .done false s
  else if t.state = .shrinking then .done false (abortTxn s tid)
  else if (s.lockTable rid).upgrading then .done false (abortTxn s tid)
  else
    let s₀ := setQueue s rid { s.lockTable rid with upgrading := true }
    match upgradeScan s₀ tid rid [] (s₀.lockTable rid).requestQueue with
    | .wait s' => .waiting s'
    | .pass s' q' =>
        let s₁ := setTxn s' tid { s'.txns tid with state := .growing }
        match q' with
        | [e] =>
            if e.txnId = tid then
              let s₂ := setQueue s₁ rid ⟨[{ e with lockMode := .exclusive }], false⟩
              let selfT := s₂.txns tid
              let s₃ := setTxn s₂ tid
                { selfT with
                  exclusiveLockSet := setInsert selfT.exclusiveLockSet rid
                  sharedLockSet := setErase selfT.sharedLockSet rid }
              .done true s₃
            else .fault "LockUpgrade: front of queue is not self"
        | _ => .fault "LockUpgrade: request queue size is not 1"

/-- Erase the first queue entry with the given txn id, returning it. -/
def removeFirstById : List LockRequest → Nat → Option (LockRequest × List LockRequest)
  | [], _ => none
  | e :: rest, tid =>
      if e.txnId = tid then some (e, rest)
      else (removeFirstById rest tid).map fun (f, q) => (f, e :: q)

/-- `LockManager::Unlock`.  The held mode is inferred from the caller's
lock sets; the GROWING→SHRINKING transition happens before the queue
scan; the `assert(iter->lock_mode_ == txn_lockmode)` surfaces as an
error.  `notify_all` is a no-op on the state. -/
def unlock (s : LMState) (tid rid : Nat) : Except String (Bool × LMState) :=
  let txnLockmode : LockMode := if isSharedLocked s tid rid then .shared else .exclusive
  let t := s.txns tid
  let s₁ :=
    if t.state = .growing then
      if isExclusiveLocked s tid rid then setTxn s tid { t with state := .shrinking }
      else if isSharedLocked s tid rid ∧ t.isolation = .repeatableRead then
        setTxn s tid { t with state := .shrinking }
      else s
    else s
  match removeFirstById (s₁.lockTable rid).requestQueue tid with
  | none => .ok (false, s₁)
  | some (e, q') =>
      if e.lockMode = txnLockmode then
        let s₂ := setQueueReq s₁ rid q'
        let t₂ := s₂.txns tid
        let s₃ :=
          if txnLockmode = .shared then
            setTxn s₂ tid { t₂ with sharedLockSet := setErase t₂.sharedLockSet rid }
          else
            setTxn s₂ tid { t₂ with exclusiveLockSet := setErase t₂.exclusiveLockSet rid }
        .ok (true, s₃)
      else .error "Unlock: lock_mode of queue entry differs from held mode"

/-- A freshly created transaction (GROWING, REPEATABLE_READ, empty lock
sets). -/
def freshTxn : Txn := ⟨.growing, .repeatableRead, [], []⟩

end BusTub

namespace BusTub

theorem setInsert_contains (l : List Nat) (x : Nat) :
    (setInsert l x).contains x = true := by
  unfold setInsert
  split
  · assumption
  · simp

theorem setQueueReq_queue (s : LMState) (rid : Nat) (q : List LockRequest) :
    ((setQueueReq s rid q).lockTable rid).requestQueue = q := by
  simp [setQueueReq, setQueue]

theorem setTxn_lockTable (s : LMState) (tid : Nat) (t : Txn) :
    (setTxn s tid t).lockTable = s.lockTable := rfl

theorem setTxn_txns_self (s : LMState) (tid : Nat) (t : Txn) :
    (setTxn s tid t).txns tid = t := by
  simp [setTxn]

theorem insertTxn_any (q : List LockRequest) (tid : Nat) (mode : LockMode) :
    (insertTxnIntoLockQueue q tid mode).any (fun e => e.txnId == tid) = true := by
  induction q with
  | nil => simp [insertTxnIntoLockQueue]
  | cons e rest ih =>
      unfold insertTxnIntoLockQueue
      split
      · rename_i h
        simp [List.any_cons, h]
      · simp [List.any_cons, ih]

theorem insertTxn_fresh (q : List LockRequest) (tid : Nat) (mode : LockMode)
    (h : ∀ e ∈ q, e.txnId ≠ tid) :
    insertTxnIntoLockQueue q tid mode = q ++ [⟨tid, mode, false⟩] := by
  induction q with
  | nil => rfl
  | cons e rest ih =>
      have he : e.txnId ≠ tid := h e (List.mem_cons_self _ _)
      unfold insertTxnIntoLockQueue
      rw [if_neg he]
      rw [ih fun e' he' => h e' (List.mem_cons_of_mem _ he')]
      rfl

/-- Facts about a completed `LockExclusive` scan: every surviving entry
is the caller's own, and there are no more survivors than the caller's
own entries in the scanned suffix plus the already-kept prefix. -/
theorem exclusiveScan_pass_facts (tid rid : Nat) (rest : List LockRequest) :
    ∀ (s : LMState) (kept : List LockRequest) (s' : LMState) (q' : List LockRequest),
      (∀ e ∈ kept, e.txnId = tid) →
      exclusiveScan s tid rid kept rest = .pass s' q' →
      (∀ e ∈ q', e.txnId = tid) ∧
        q'.length ≤ kept.length + rest.countP (fun e => e.txnId == tid) := by
  induction rest with
  | nil =>
      intro s kept s' q' hk h
      unfold exclusiveScan at h
      injection h with h1 h2
      subst h2
      exact ⟨hk, Nat.le_of_eq (by simp)⟩
  | cons e rest ih =>
      intro s kept s' q' hk h
      unfold exclusiveScan at h
      split at h
      · have := ih _ kept s' q' hk h
        refine ⟨this.1, this.2.trans ?_⟩
        rw [List.countP_cons]
        omega
      · split at h
        · exact absurd h (by intro hcon; cases hcon)
        · rename_i h1 h2
          have he : e.txnId = tid := by omega
          have hk' : ∀ e' ∈ kept ++ [e], e'.txnId = tid := by
            intro e' he'
            rcases List.mem_append.mp he' with h' | h'
            · exact hk e' h'
            · rcases List.mem_singleton.mp h' with rfl
              exact he
          have := ih _ (kept ++ [e]) s' q' hk' h
          refine ⟨this.1, this.2.trans ?_⟩
          rw [List.countP_cons]
          simp [he]
          omega

end BusTub

namespace BusTub

/-- Facts about the state a blocking `LockShared` scan hands to
`cv_.wait`: the caller is in the rid's request queue, the rid is in the
caller's shared lock set, and a caller that had no entry in the scanned
queue sits at the tail as a fresh not-yet-granted SHARED request. -/
theorem sharedScan_wait_facts (tid rid : Nat) (rest : List LockRequest) :
    ∀ (s : LMState) (kept : List LockRequest) (s' : LMState),
      sharedScan s tid rid kept rest = .wait s' →
      ((s'.lockTable rid).requestQueue.any (fun e => e.txnId == tid) = true
        ∧ (s'.txns tid).sharedLockSet.contains rid = true
        ∧ ((∀ e ∈ kept ++ rest, e.txnId ≠ tid) →
            ∃ q₀, (s'.lockTable rid).requestQueue = q₀ ++ [⟨tid, .shared, false⟩])) := by
  induction rest with
  | nil =>
      intro s kept s' h
      exact absurd h (by intro hcon; cases hcon)
  | cons e rest ih =>
      intro s kept s' h
      unfold sharedScan at h
      split at h
      · have := ih _ kept s' h
        refine ⟨this.1, this.2.1, fun hf => this.2.2 ?_⟩
        intro e' he'
        refine hf e' ?_
        rcases List.mem_append.mp he' with h' | h'
        · exact List.mem_append.mpr (.inl h')
        · exact List.mem_append.mpr (.inr (List.mem_cons_of_mem _ h'))
      · split at h
        · injection h with h1
          subst h1
          refine ⟨?_, ?_, ?_⟩
          · rw [setTxn_lockTable, setQueueReq_queue]
            exact insertTxn_any _ tid .shared
          · rw [setTxn_txns_self]
            exact setInsert_contains _ rid
          · intro hf
            rw [setTxn_lockTable, setQueueReq_queue]
            exact ⟨kept ++ e :: rest, insertTxn_fresh _ tid .shared hf⟩
        · have := ih _ (kept ++ [e]) s' h
          refine ⟨this.1, this.2.1, fun hf => this.2.2 ?_⟩
          intro e' he'
          refine hf e' ?_
          rcases List.mem_append.mp he' with h' | h'
          · rcases List.mem_append.mp h' with h'' | h''
            · exact List.mem_append.mpr (.inl h'')
            · rcases List.mem_singleton.mp h'' with rfl
              exact List.mem_append.mpr (.inr (List.mem_cons_self _ _))
          · exact List.mem_append.mpr (.inr (List.mem_cons_of_mem _ h'))

/-- C10: a `LockShared` call whose queue scan blocks behind an older
exclusive holder has, at the moment it blocks on the condition variable,
already inserted itself into the rid's request queue (as a fresh
not-yet-granted SHARED request, the caller having had no entry in the
queue) and added the rid to its shared lock set — so
`txn.IsSharedLocked(rid)` is already true although the shared lock has
not been granted (the call has not returned). -/
theorem C10_lockShared_wait_registers_shared (s : LMState) (tid rid : Nat) (s' : LMState)
    (hfresh : ∀ e ∈ (s.lockTable rid).requestQueue, e.txnId ≠ tid)
    (h : lockSharedBody s tid rid = .waiting s') :
    (s'.lockTable rid).requestQueue.any (fun e => e.txnId == tid) = true
      ∧ isSharedLocked s' tid rid = true
      ∧ ∃ q₀, (s'.lockTable rid).requestQueue = q₀ ++ [⟨tid, .shared, false⟩] := by
  simp only [lockSharedBody] at h
  split at h
  · simp at h
  · split at h
    · simp at h
    · split at h
      · simp at h
      · split at h
        · simp at h
        · split at h
          · rename_i s₂ hscan
            injection h with h1
            subst h1
            have hf := sharedScan_wait_facts tid rid _ s [] _ hscan
            exact ⟨hf.1, hf.2.1, hf.2.2 (by simpa using hfresh)⟩
          · simp at h

/-- State for the C10 witness: transaction 0 (older) holds EXCLUSIVE on
rid 0; transaction 1 calls `LockShared` and must block. -/
def c10State : LMState :=
  ⟨fun i => if i = 0 then ⟨.growing, .repeatableRead, [], [0]⟩ else freshTxn,
   fun r => if r = 0 then ⟨[⟨0, .exclusive, false⟩], false⟩ else emptyLockQueue⟩

/-- The state in which the blocked `LockShared` of the C10 witness
waits. -/
def c10After : LMState :=
  match lockSharedBody c10State 1 0 with
  | .waiting s' => s'
  | _ => c10State

/-- Witness for `C10_lockShared_wait_registers_shared` on `c10State`. -/
theorem C10_lockShared_wait_registers_shared_witness :
    (c10After.lockTable 0).requestQueue.any (fun e => e.txnId == 1) = true
      ∧ isSharedLocked c10After 1 0 = true
      ∧ ∃ q₀, (c10After.lockTable 0).requestQueue = q₀ ++ [⟨1, .shared, false⟩] := by
  have hfresh : ∀ e ∈ (c10State.lockTable 0).requestQueue, e.txnId ≠ 1 := by
    decide
  have h : lockSharedBody c10State 1 0 = .waiting c10After := rfl
  exact C10_lockShared_wait_registers_shared c10State 1 0 c10After hfresh h

/-- State for C2: transaction 3 (older than 9) holds EXCLUSIVE on rid 0;
the caller will be transaction 9, which per the wound–wait rule of the
claim must DIE on the older holder. -/
def c2State : LMState :=
  ⟨fun i => if i = 3 then ⟨.growing, .repeatableRead, [], [0]⟩ else freshTxn,
   fun r => if r = 0 then ⟨[⟨3, .exclusive, false⟩], false⟩ else emptyLockQueue⟩

/-- C2 failing input: because of the `txn->GetTransactionId() == 9`
disjunct in `LockExclusive`'s wound condition, transaction 9 wounds the
OLDER transaction 3 (erasing its entry, purging its locks and aborting
it) and is granted the exclusive lock, where the claim requires 9 to
abort itself and return false. -/
theorem C2_nine_artifact_wounds_older :
    (3 : Nat) < 9
      ∧ (lockExclusive c2State 9 0).1 = true
      ∧ ((lockExclusive c2State 9 0).2.txns 3).state = .aborted
      ∧ ((lockExclusive c2State 9 0).2.txns 3).exclusiveLockSet = []
      ∧ ((lockExclusive c2State 9 0).2.txns 9).state = .growing
      ∧ ((lockExclusive c2State 9 0).2.lockTable 0).requestQueue = [⟨9, .exclusive, false⟩]
      ∧ isExclusiveLocked (lockExclusive c2State 9 0).2 9 0 = true := by
  decide

end BusTub

namespace BusTub

/-- Initial state for the C3 counterexample: two fresh transactions,
empty lock table. -/
def c3Start : LMState := ⟨fun _ => freshTxn, fun _ => emptyLockQueue⟩

/-- The state reached by the step sequence
`LockShared(T1,R); LockExclusive(T1,R); Unlock(T1,R); LockShared(T2,R)`
(all four calls complete at once, so no waiting is involved); `none` if
any call fails. -/
def c3Reached : Option LMState :=
  match lockSharedBody c3Start 1 0 with
  | .done true s₁ =>
      match lockExclusive s₁ 1 0 with
      | (true, s₂) =>
          match unlock s₂ 1 0 with
          | .ok (true, s₃) =>
              match lockSharedBody s₃ 2 0 with
              | .done true s₄ => some s₄
              | _ => none
          | _ => none
      | _ => none
  | _ => none

/-- C3 counterexample: a state reachable by four completing lock-manager
steps in which transaction 1 holds EXCLUSIVE on rid 0
(`IsExclusiveLocked` is true) while transaction 2 simultaneously holds a
granted SHARED lock on the same rid.  (T1's `Unlock` after
`LockShared` + `LockExclusive` removes only the SHARED half: the single
queue entry kept mode SHARED, so `Unlock` erases the entry and the
shared set but leaves rid in T1's exclusive set.) -/
theorem C3_exclusive_alongside_shared_counterexample :
    c3Reached.map
        (fun s => (isExclusiveLocked s 1 0, isSharedLocked s 2 0,
          (s.lockTable 0).requestQueue))
      = some (true, true, [⟨2, .shared, false⟩]) := by
  decide

/-- C3, amended: when a `LockExclusive` call that reaches the queue scan
returns true, every other transaction has been erased from the rid's
request queue: the queue afterwards holds exactly one entry, the
caller's, and the rid is in the caller's exclusive lock set.  (The
hypothesis that the caller had at most one entry in the queue rules out
duplicate self-entries, which no execution produces.) -/
theorem C3_exclusive_grant_leaves_only_self (s : LMState) (tid rid : Nat) (s' : LMState)
    (hx : isExclusiveLocked s tid rid = false)
    (hdup : (s.lockTable rid).requestQueue.countP (fun e => e.txnId == tid) ≤ 1)
    (h : lockExclusive s tid rid = (true, s')) :
    (∃ e, (s'.lockTable rid).requestQueue = [e] ∧ e.txnId = tid)
      ∧ isExclusiveLocked s' tid rid = true := by
  simp only [lockExclusive] at h
  split at h
  · simp at h
  · split at h
    · simp at h
    · split at h
      · rename_i hexcl
        rw [hx] at hexcl
        cases hexcl
      · split at h
        · simp at h
        · rename_i s₀ q' hscan
          injection h with h1 h2
          subst h2
          have hfacts := exclusiveScan_pass_facts tid rid _ s [] s₀ q'
            (by intro e he; cases he) hscan
          have hlen : q'.length ≤ 1 := hfacts.2.trans (by simpa using hdup)
          constructor
          · rw [setTxn_lockTable, setQueueReq_queue]
            match q', hlen with
            | [], _ => exact ⟨⟨tid, .exclusive, false⟩, rfl, rfl⟩
            | [e], _ =>
                have he : e.txnId = tid := hfacts.1 e (List.mem_singleton.mpr rfl)
                refine ⟨{ e with granted := true }, ?_, he⟩
                simp [insertTxnIntoLockQueue, he]
          · rw [isExclusiveLocked, setTxn_txns_self]
            exact setInsert_contains _ rid

/-- Input state for the C3 amended-claim witness: one fresh transaction,
empty queue. -/
def c3wStart : LMState := ⟨fun _ => freshTxn, fun _ => emptyLockQueue⟩

/-- The state after `LockExclusive(T1, R0)` on `c3wStart`. -/
def c3wAfter : LMState := (lockExclusive c3wStart 1 0).2

/-- Witness for `C3_exclusive_grant_leaves_only_self` on `c3wStart`. -/
theorem C3_exclusive_grant_leaves_only_self_witness :
    (∃ e, (c3wAfter.lockTable 0).requestQueue = [e] ∧ e.txnId = 1)
      ∧ isExclusiveLocked c3wAfter 1 0 = true := by
  have h : lockExclusive c3wStart 1 0 = (true, c3wAfter) := rfl
  exact C3_exclusive_grant_leaves_only_self c3wStart 1 0 c3wAfter (by decide) (by decide) h

/-- Initial state for C7: transactions 0 and 1 both hold granted SHARED
locks on rid 0 (GROWING, REPEATABLE_READ), and no upgrade is in
progress. -/
def c7Start : LMState :=
  ⟨fun i =>
      if i = 0 then ⟨.growing, .repeatableRead, [0], []⟩
      else if i = 1 then ⟨.growing, .repeatableRead, [0], []⟩
      else freshTxn,
   fun r => if r = 0 then ⟨[⟨0, .shared, false⟩, ⟨1, .shared, false⟩], false⟩ else emptyLockQueue⟩

/-- The schedule of the C7 failing input: T1 runs the `LockUpgrade` body
and blocks behind the older holder T0; T0 unlocks (notifying the queue);
T1 is woken and re-runs the body from `upgCheck`.  The result records
what T1's call returned together with T1's final transaction state. -/
def c7Schedule : Option (Bool × TxnState) :=
  match lockUpgradeBody c7Start 1 0 with
  | .waiting s₁ =>
      match unlock s₁ 0 0 with
      | .ok (true, s₂) =>
          match lockUpgradeBody s₂ 1 0 with
          | .done b s₃ => some (b, (s₃.txns 1).state)
          | _ => none
      | _ => none
  | _ => none

/-- C7 failing input: with T0 and T1 both holding SHARED on rid 0 and no
upgrade in progress, T1's `LockUpgrade` waits behind the older T0, and
when T0's `Unlock` wakes it, the re-run of the body finds the
`upgrading_` flag that T1 itself set still true, so T1 aborts itself and
the call returns false — instead of mutating its entry to EXCLUSIVE and
returning true as the claim requires. -/
theorem C7_lockUpgrade_self_aborts_after_wait :
    (c7Start.txns 1).sharedLockSet.contains 0 = true
      ∧ (c7Start.txns 1).state = .growing
      ∧ (c7Start.lockTable 0).upgrading = false
      ∧ c7Schedule = some (false, .aborted) := by
  decide

end BusTub

namespace BusTub

/-! ### Executors (src/src/execution/seq_scan_executor.cpp,
src/src/execution/delete_executor.cpp)

Tuples are modelled as `Nat` (output-column evaluation against the
schema is the identity on the tuple — expressions are external
collaborators per spec §1), the child executor / table iterator as the
list of `(tuple, rid)` pairs it yields, and the heap table as a list of
rows with a deleted mark.  The catalog is modelled with one index, whose
`DeleteEntry` plus index-write record is the appended rid.  The lock
manager is present (`lock_mgr != nullptr`).  A lock call that would
block surfaces as an error since these runs must not block. -/

/-- A `LockShared` call in a context where it must complete at once. -/
def lockSharedCall (s : LMState) (tid rid : Nat) : Except String (Bool × LMState) :=
  match lockSharedBody s tid rid with
  | .done b s' => .ok (b, s')
  | .waiting _ => .error "LockShared blocked"
  | .fault m => .error m

/-- A `LockUpgrade` call in a context where it must complete at once. -/
def lockUpgradeCall (s : LMState) (tid rid : Nat) : Except String (Bool × LMState) :=
  match lockUpgradeBody s tid rid with
  | .done b s' => .ok (b, s')
  | .waiting _ => .error "LockUpgrade blocked"
  | .fault m => .error m

structure HeapRow where
  rid : Nat
  tuple : Nat
  deleted : Bool
deriving DecidableEq, Repr

/-- `TableHeap::MarkDelete` (external collaborator, spec §6). -/
def markDelete (heap : List HeapRow) (rid : Nat) : List HeapRow :=
  heap.map fun r => if r.rid = rid then { r with deleted := true } else r

/-- `SeqScanExecutor::Next`: take a SHARED lock on the row's rid (unless
READ_UNCOMMITTED or already locked) — the boolean result of
`LockShared` is discarded, exactly as in the source —, evaluate the
output columns, release at READ_COMMITTED, and emit the row if the
predicate passes, else recurse. -/
def seqScanNext (lm : LMState) (tid : Nat) (pred : Option (Nat → Bool)) :
    List (Nat × Nat) → Except String (Option (Nat × Nat) × LMState)
  | [] => .ok (none, lm)
  | (tup, rid) :: rest => do
      let t := lm.txns tid
      let lm₁ ←
        if t.isolation ≠ .readUncommitted
            ∧ isExclusiveLocked lm tid rid = false ∧ isSharedLocked lm tid rid = false then
          (lockSharedCall lm tid rid).map Prod.snd
        else pure lm
      let lm₂ ←
        if (lm₁.txns tid).isolation = .readCommitted then (unlock lm₁ tid rid).map Prod.snd
        else pure lm₁
      match pred with
      | none => .ok (some (tup, rid), lm₂)
      | some p => if p tup then .ok (some (tup, rid), lm₂) else seqScanNext lm₂ tid pred rest

/-- `DeleteExecutor::Next`: for every child row, upgrade from SHARED or
take EXCLUSIVE (results discarded, as in the source), `MarkDelete` the
row, delete its index key and record an index-write record, release at
READ_COMMITTED; returns false when the child is exhausted. -/
def deleteNext (lm : LMState) (tid : Nat) (heap : List HeapRow) (writes : List Nat) :
    List (Nat × Nat) → Except String (Bool × LMState × List HeapRow × List Nat)
  | [] => .ok (false, lm, heap, writes)
  | (_, rid) :: pulls => do
      let lm₁ ←
        if isSharedLocked lm tid rid then (lockUpgradeCall lm tid rid).map Prod.snd
        else if isExclusiveLocked lm tid rid = false then pure (lockExclusive lm tid rid).2
        else pure lm
      let heap₁ := markDelete heap rid
      let writes₁ := writes ++ [rid]
      let lm₂ ←
        if (lm₁.txns tid).isolation = .readCommitted then (unlock lm₁ tid rid).map Prod.snd
        else pure lm₁
      deleteNext lm₂ tid heap₁ writes₁ pulls

/-- Lock-manager state of the C8 failing input: transaction 1 has been
wounded and set ABORTED (REPEATABLE_READ, empty lock sets), rid 0 has an
empty queue. -/
def c8Lm : LMState :=
  ⟨fun i => if i = 1 then ⟨.aborted, .repeatableRead, [], []⟩ else freshTxn,
   fun _ => emptyLockQueue⟩

/-- C8 failing input: both lock acquisitions of the wounded (ABORTED)
transaction 1 return false, yet `DeleteExecutor::Next` still
`MarkDelete`s the heap row and records the index write, and
`SeqScanExecutor::Next` still emits the row — with no lock granted (the
queue stays empty and T1's lock sets stay empty), where the claim
requires the executors to propagate an aborted statement instead. -/
theorem C8_executors_continue_after_lock_failure :
    (c8Lm.txns 1).state = .aborted
      ∧ (lockExclusive c8Lm 1 0).1 = false
      ∧ (match lockSharedCall c8Lm 1 0 with
          | .ok (b, _) => some b
          | _ => none) = some false
      ∧ (match deleteNext c8Lm 1 [⟨0, 7, false⟩] [] [(7, 0)] with
          | .ok (b, lm', h', w') =>
              some (b, h', w', (lm'.txns 1).exclusiveLockSet, (lm'.lockTable 0).requestQueue)
          | _ => none)
          = some (false, [⟨0, 7, true⟩], [0], [], [])
      ∧ (match seqScanNext c8Lm 1 none [(7, 0)] with
          | .ok (out, lm') => some (out, (lm'.txns 1).sharedLockSet)
          | _ => none)
          = some (some (7, 0), []) := by
  refine ⟨by decide, by decide, by decide, by decide, by decide⟩

end BusTub

namespace BusTub

/-! ### Buffer pool and directory page

`buffer_pool_manager_instance.cpp` and the directory-page class are not
among the sources (only `parallel_buffer_pool_manager.cpp` is), so both
are modelled from the spec (§4.2 "Buffer Pool Instance", §3 "Directory
page").  Eviction and the disk are collapsed: a page, once created,
stays resident with its contents, which preserves exactly the
pin-count/dirty/content behaviour the hash-table claims depend on (the
spec's Fetch/Unpin/New/Delete contracts).  A single instance is
modelled, so `NewPage` allocates consecutive page ids starting at 0.
Fixed zero-initialized arrays (the 512-slot directory arrays, per-page
pin counts) are lists read with default 0: an index never written reads
0, exactly like the zeroed C++ array. -/

/-- Write `v` at index `i` of a zero-default array, padding with the
default `dflt` as the zeroed array extends to any index in range. -/
def listSetD (dflt : α) : List α → Nat → α → List α
  | [], 0, v => [v]
  | [], n + 1, v => dflt :: listSetD dflt [] n v
  | _ :: rest, 0, v => v :: rest
  | x :: rest, n + 1, v => x :: listSetD dflt rest n v

/-- Modelled from the spec (§3): the directory page
`{page_id, global_depth, local_depth[·], bucket_page_id[·]}`
(`hash_table_directory_page.cpp` is not among the sources).  The two
arrays are zero-default. -/
structure DirPage where
  pageId : Nat
  globalDepth : Nat
  localDepth : List Nat
  bucketPageId : List Nat
deriving DecidableEq, Repr

/-- `GetLocalDepth(i)`. -/
def dirLd (d : DirPage) (i : Nat) : Nat := d.localDepth.getD i 0

/-- `GetBucketPageId(i)`. -/
def dirPid (d : DirPage) (i : Nat) : Nat := d.bucketPageId.getD i 0

/-- A zeroed frame reinterpreted as a directory page: all fields 0. -/
def zeroDir : DirPage := ⟨0, 0, [], []⟩

/-- Modelled from the spec: `Size() = 1 << global_depth`. -/
def dirSize (d : DirPage) : Nat := 2 ^ d.globalDepth

/-- Modelled from the spec: `GetGlobalDepthMask() = (1 << global_depth) - 1`. -/
def globalDepthMask (d : DirPage) : Nat := 2 ^ d.globalDepth - 1

/-- Modelled from the spec: `GetLocalDepthMask(i) = (1 << local_depth[i]) - 1`. -/
def localDepthMask (d : DirPage) (i : Nat) : Nat := 2 ^ (dirLd d i) - 1

def dirSetLocalDepth (d : DirPage) (i v : Nat) : DirPage :=
  { d with localDepth := listSetD 0 d.localDepth i v }

def dirSetBucketPageId (d : DirPage) (i pid : Nat) : DirPage :=
  { d with bucketPageId := listSetD 0 d.bucketPageId i pid }

def incrLocalDepth (d : DirPage) (i : Nat) : DirPage :=
  dirSetLocalDepth d i (dirLd d i + 1)

def decrLocalDepth (d : DirPage) (i : Nat) : DirPage :=
  dirSetLocalDepth d i (dirLd d i - 1)

/-- Copy slot `j` to slot `sz + j` for every `j < count` (the doubling
copy; writes land above every read, so the order is immaterial). -/
def inheritGo (sz : Nat) : Nat → List Nat → List Nat
  | 0, l => l
  | j + 1, l => inheritGo sz j (listSetD 0 l (sz + j) (l.getD j 0))

/-- Modelled from the spec (§4.4 step 2): doubling the directory — the
new upper-half slots "inherit the existing mappings". -/
def incrGlobalDepth (d : DirPage) : DirPage :=
  let sz := 2 ^ d.globalDepth
  { d with
    globalDepth := d.globalDepth + 1
    localDepth := inheritGo sz sz d.localDepth
    bucketPageId := inheritGo sz sz d.bucketPageId }

def decrGlobalDepth (d : DirPage) : DirPage :=
  { d with globalDepth := d.globalDepth - 1 }

/-- Modelled from the spec (§4.4/§4.4 Merge): the split image of slot
`i` differs in the top bit of the slot's local depth:
`i ^ (1 << (local_depth[i]-1))`. -/
def splitImageIdx (d : DirPage) (i : Nat) : Nat :=
  i ^^^ (1 <<< (dirLd d i - 1))

/-- Modelled from the spec: `CanShrink()` — no slot has
`local_depth == global_depth`. -/
def canShrink (d : DirPage) : Bool :=
  (List.range (dirSize d)).all fun i => dirLd d i != d.globalDepth

/-- The `while (CanShrink()) DecrGlobalDepth()` loop; each decrement
lowers `global_depth` by one, so `global_depth` many steps suffice. -/
def shrinkLoop : Nat → DirPage → DirPage
  | 0, d => d
  | fuel + 1, d => if canShrink d then shrinkLoop fuel (decrGlobalDepth d) else d

inductive PageData where
  | dir (d : DirPage)
  | bucket (b : BucketPage)
deriving DecidableEq, Repr

def poolLookup : List (Nat × PageData) → Nat → Option PageData
  | [], _ => none
  | (j, pd) :: rest, id => if j = id then some pd else poolLookup rest id

def poolWrite (ps : List (Nat × PageData)) (id : Nat) (pd : PageData) : List (Nat × PageData) :=
  ps.map fun p => if p.1 = id then (id, pd) else p

/-- Modelled from the spec (§4.2): page store, per-page pin counts and
dirty flags (zero-default arrays indexed by page id), and the
next-new-page allocator of the single instance. -/
structure BufferPool where
  pages : List (Nat × PageData)
  pinCount : List Nat
  dirtyFlag : List Bool
  nextPageId : Nat
deriving DecidableEq, Repr

/-- Pin count of a page. -/
def pinOf (bp : BufferPool) (id : Nat) : Nat := bp.pinCount.getD id 0

/-- Dirty flag of a page. -/
def dirtyOf (bp : BufferPool) (id : Nat) : Bool := bp.dirtyFlag.getD id false

/-- Modelled from the spec: `FetchPage` — on a hit, pin++ and return the
frame; a page this system never created cannot be fetched. -/
def fetchPage (bp : BufferPool) (id : Nat) : Except String (PageData × BufferPool) :=
  match poolLookup bp.pages id with
  | some pd =>
      .ok (pd, { bp with pinCount := listSetD 0 bp.pinCount id (pinOf bp id + 1) })
  | none => .error "FetchPage: page absent"

/-- Modelled from the spec: `UnpinPage` — false when absent or already
unpinned; otherwise pin-- and `is_dirty |= hint`. -/
def unpinPage (bp : BufferPool) (id : Nat) (dirtyHint : Bool) : Bool × BufferPool :=
  match poolLookup bp.pages id with
  | none => (false, bp)
  | some _ =>
      if pinOf bp id = 0 then (false, bp)
      else
        (true,
         { bp with
           pinCount := listSetD 0 bp.pinCount id (pinOf bp id - 1)
           dirtyFlag := listSetD false bp.dirtyFlag id (dirtyOf bp id || dirtyHint) })

/-- Modelled from the spec: `NewPage` — allocate the next page id with a
zeroed frame (the caller chooses which page kind the zeroed bytes are
viewed as), pin = 1, clean. -/
def newPage (bp : BufferPool) (pd : PageData) : Nat × BufferPool :=
  (bp.nextPageId,
   { pages := (bp.nextPageId, pd) :: bp.pages
     pinCount := listSetD 0 bp.pinCount bp.nextPageId 1
     dirtyFlag := listSetD false bp.dirtyFlag bp.nextPageId false
     nextPageId := bp.nextPageId + 1 })

/-- Modelled from the spec: `DeletePage` — true when absent; false when
pinned; otherwise drop the mapping. -/
def deletePage (bp : BufferPool) (id : Nat) : Bool × BufferPool :=
  match poolLookup bp.pages id with
  | none => (true, bp)
  | some _ =>
      if pinOf bp id ≠ 0 then (false, bp)
      else (true, { bp with pages := bp.pages.filter fun p => p.1 ≠ id })

/-- A write through the frame pointer: in C++ mutations through
`GetData()` are immediate; the model carries the page value locally and
stores it back before the page is unpinned (no other reader intervenes
while the operation holds the table lock / page latch). -/
def writePage (bp : BufferPool) (id : Nat) (pd : PageData) : BufferPool :=
  { bp with pages := poolWrite bp.pages id pd }

/-- A C++ `assert(e)`: the debug build aborts when `e` is false. -/
def assertE (b : Bool) (msg : String) : Except String Unit :=
  if b then .ok () else .error msg

/-- `reinterpret_cast` of a frame as a directory page; applying it to a
page that holds a bucket is type confusion and is modelled as a fault. -/
def asDir : PageData → Except String DirPage
  | .dir d => .ok d
  | .bucket _ => .error "reinterpret: page is not a directory page"

/-- `reinterpret_cast` of a frame as a bucket page
(`FetchHashBucketPage`); applying it to the directory page is type
confusion and is modelled as a fault (on the C++ paths that do this the
subsequent unpin assertions fail regardless). -/
def asBucket : PageData → Except String BucketPage
  | .bucket b => .ok b
  | .dir _ => .error "reinterpret: page is not a bucket page"

/-! ### Extendible hash table (src/src/container/hash/extendible_hash_table.cpp)

The table state is the buffer pool plus `directory_page_id_`
(`none` = `INVALID_PAGE_ID`), the compile-time `BUCKET_ARRAY_SIZE`, and
the hash function (`hash_fn_`).  `Hash` truncates a 64-bit hash to 32
bits; every use masks with at most 9 low bits, so the truncation is
absorbed by the masks. -/

structure HashTable where
  bp : BufferPool
  directoryPageId : Option Nat
  bucketSize : Nat
  hashFn : Nat → Nat

def emptyTable (n : Nat) (hf : Nat → Nat) : HashTable :=
  ⟨⟨[], [], [], 0⟩, none, n, hf⟩

/-- `HASH_TABLE_TYPE::FetchDirectoryPage`: create the directory page and
the first bucket page on first use (both zeroed frames, both unpinned
dirty under `assert`), then fetch the directory page. -/
def fetchDirectoryPage (t : HashTable) : Except String (DirPage × HashTable) := do
  let t₁ ←
    match t.directoryPageId with
    | some _ => pure t
    | none => do
        let (did, bpA) := newPage t.bp (.dir zeroDir)
        let dirA := { zeroDir with pageId := did }
        let (bid, bpB) := newPage bpA (.bucket (zeroBucket t.bucketSize))
        let dirB := dirSetBucketPageId dirA 0 bid
        let bpC := writePage bpB did (.dir dirB)
        let (u1, bpD) := unpinPage bpC did true
        let _ ← assertE u1 "FetchDirectoryPage: unpin directory"
        let (u2, bpE) := unpinPage bpD bid true
        let _ ← assertE u2 "FetchDirectoryPage: unpin bucket"
        pure { t with bp := bpE, directoryPageId := some did }
  match t₁.directoryPageId with
  | none => .error "FetchDirectoryPage: INVALID_PAGE_ID"
  | some did => do
      let (pd, bp') ← fetchPage t₁.bp did
      let dir ← asDir pd
      pure (dir, { t₁ with bp := bp' })

/-- `HASH_TABLE_TYPE::GetValue`: fetch directory and target bucket, read
the matching values, unpin both clean. -/
def getValueOp (t : HashTable) (k : Nat) : Except String (List Nat × HashTable) := do
  let (dir, t₁) ← fetchDirectoryPage t
  let pid := dirPid dir (t₁.hashFn k &&& globalDepthMask dir)
  let (pd, bp₁) ← fetchPage t₁.bp pid
  let bucket ← asBucket pd
  let res := bucketGetValue bucket k
  let (u1, bp₂) := unpinPage bp₁ pid false
  let _ ← assertE u1 "GetValue: unpin bucket"
  let (u2, bp₃) := unpinPage bp₂ dir.pageId false
  let _ ← assertE u2 "GetValue: unpin directory"
  pure (res, { t₁ with bp := bp₃ })

end BusTub

namespace BusTub

/-- The downward propagation loops of `SplitInsert`
(`for (i = start; i >= diff; i -= diff)` with
`SetLocalDepth(i, GetLocalDepth(refIdx)); SetBucketPageId(i, pid)`),
`diff = 2 ^ e`.  The loop index strictly decreases by `diff ≥ 1` each
iteration, so the structural counter never runs out when it starts at
`i + 1` (see `aliasDown`). -/
def aliasDownGo : Nat → DirPage → Nat → Nat → Nat → Nat → DirPage
  | 0, dir, _, _, _, _ => dir
  | fuel + 1, dir, refIdx, pid, e, i =>
      if 2 ^ e ≤ i then
        aliasDownGo fuel (dirSetBucketPageId (dirSetLocalDepth dir i (dirLd dir refIdx)) i pid)
          refIdx pid e (i - 2 ^ e)
      else dir

def aliasDown (dir : DirPage) (refIdx pid e i : Nat) : DirPage :=
  aliasDownGo (i + 1) dir refIdx pid e i

/-- The upward propagation loops of `SplitInsert`
(`for (i = start; i < Size(); i += diff)`); the counter `size + 1`
never runs out since the index strictly increases by `diff ≥ 1`. -/
def aliasUpGo : Nat → DirPage → Nat → Nat → Nat → Nat → Nat → DirPage
  | 0, dir, _, _, _, _, _ => dir
  | fuel + 1, dir, refIdx, pid, e, size, i =>
      if i < size then
        aliasUpGo fuel (dirSetBucketPageId (dirSetLocalDepth dir i (dirLd dir refIdx)) i pid)
          refIdx pid e size (i + 2 ^ e)
      else dir

def aliasUp (dir : DirPage) (refIdx pid e size i : Nat) : DirPage :=
  aliasUpGo (size + 1) dir refIdx pid e size i

/-- The directory state after lines 170–174 of `SplitInsert`: maybe
double the directory, then raise the split slot's local depth. -/
def splitDirTwo (dir : DirPage) (h : Nat) : DirPage :=
  let sbi := h &&& globalDepthMask dir
  incrLocalDepth (if dirLd dir sbi = dir.globalDepth then incrGlobalDepth dir else dir) sbi

/-- The directory surgery of `SplitInsert` up to the split-image slot
assignment (lines 170–191): `splitDirTwo`, then point the image slot at
the new page with local depth set to the (current) GLOBAL depth. -/
def splitDirPre (dir : DirPage) (h newPid : Nat) : DirPage :=
  let sbi := h &&& globalDepthMask dir
  let dir₂ := splitDirTwo dir h
  let nbi := splitImageIdx dir₂ sbi
  dirSetBucketPageId (dirSetLocalDepth dir₂ nbi dir₂.globalDepth) nbi newPid

/-- The complete directory transformation of `SplitInsert` (lines
170–221): the `splitDirPre` surgery followed by the four
alias-propagation loops with stride `1 << GetLocalDepth(split_index)`.
`split_bucket_page_id` is the value the source reads at line 176 —
after `IncrLocalDepth` but BEFORE the image-slot assignment. -/
def splitDirFinal (dir : DirPage) (h newPid : Nat) : DirPage :=
  let sbi := h &&& globalDepthMask dir
  let dir₂ := splitDirTwo dir h
  let splitPid := dirPid dir₂ (h &&& globalDepthMask dir₂)
  let nbi := splitImageIdx dir₂ sbi
  let dir₄ := splitDirPre dir h newPid
  let e := dirLd dir₄ sbi
  let dir₅ := aliasDown dir₄ sbi splitPid e sbi
  let dir₆ := aliasUp dir₅ sbi splitPid e (dirSize dir₅) sbi
  let dir₇ := aliasDown dir₆ nbi newPid e nbi
  aliasUp dir₇ nbi newPid e (dirSize dir₇) nbi

/-- The rehash loop of `SplitInsert` (lines 193–203): each saved entry
goes back to the split bucket or to the new bucket according to its low
`new_depth` bits, under the source's assertions. -/
def rehashEntries (hf : Nat → Nat) (dir : DirPage) (sbi splitPid newPid : Nat) :
    List (Nat × Nat) → BucketPage → BucketPage → Except String (BucketPage × BucketPage)
  | [], sb, nb => .ok (sb, nb)
  | (k, v) :: rest, sb, nb => do
      let target := hf k &&& localDepthMask dir sbi
      let tpid := dirPid dir target
      let _ ← assertE (tpid == splitPid || tpid == newPid) "SplitInsert: rehash target page"
      if tpid = splitPid then
        let (ins, sb') := bucketInsert sb k v
        let _ ← assertE ins "SplitInsert: reinsert into split bucket"
        rehashEntries hf dir sbi splitPid newPid rest sb' nb
      else
        let (ins, nb') := bucketInsert nb k v
        let _ ← assertE ins "SplitInsert: insert into new bucket"
        rehashEntries hf dir sbi splitPid newPid rest sb nb'

/-- Result of the structural part of `SplitInsert`: either the
MAX_BUCKET_DEPTH failure path (returns false without recursing) or a
completed split (after which `SplitInsert` recursively calls
`Insert`). -/
inductive SplitOut where
  | noRoom (t : HashTable)
  | didSplit (t : HashTable)

/-- The structural part of `HASH_TABLE_TYPE::SplitInsert` (lines
158–229, everything up to the recursive `Insert` call): directory
surgery per `splitDirPre`/`splitDirFinal`, copy-and-reset of the split
bucket, allocation of the new bucket page, rehash, write-backs and
unpins. -/
def splitStep (t : HashTable) (k : Nat) : Except String SplitOut := do
  let (dir, t₁) ← fetchDirectoryPage t
  let sbi := t₁.hashFn k &&& globalDepthMask dir
  let d := dirLd dir sbi
  if 9 ≤ d then
    let (u, bp₁) := unpinPage t₁.bp dir.pageId false
    let _ ← assertE u "SplitInsert: unpin directory (full)"
    pure (.noRoom { t₁ with bp := bp₁ })
  else do
    let dir₂ := splitDirTwo dir (t₁.hashFn k)
    let splitPid := dirPid dir₂ (t₁.hashFn k &&& globalDepthMask dir₂)
    let (pd, bp₁) ← fetchPage t₁.bp splitPid
    let splitBucket ← asBucket pd
    let preArray := getArrayCopy splitBucket
    let (newPid, bp₂) := newPage bp₁ (.bucket (zeroBucket t₁.bucketSize))
    let dir₄ := splitDirPre dir (t₁.hashFn k) newPid
    let (sb, nb) ← rehashEntries t₁.hashFn dir₄ sbi splitPid newPid preArray
      (bucketReset splitBucket) (zeroBucket t₁.bucketSize)
    let dir₈ := splitDirFinal dir (t₁.hashFn k) newPid
    let bp₃ := writePage bp₂ splitPid (.bucket sb)
    let bp₄ := writePage bp₃ newPid (.bucket nb)
    let (u1, bp₅) := unpinPage bp₄ splitPid true
    let _ ← assertE u1 "SplitInsert: unpin split bucket"
    let (u2, bp₆) := unpinPage bp₅ newPid true
    let _ ← assertE u2 "SplitInsert: unpin new bucket"
    let bp₇ := writePage bp₆ dir.pageId (.dir dir₈)
    let (u3, bp₈) := unpinPage bp₇ dir.pageId true
    let _ ← assertE u3 "SplitInsert: unpin directory"
    pure (.didSplit { t₁ with bp := bp₈ })

/-- `HASH_TABLE_TYPE::Insert`: fast path into a non-full bucket;
otherwise release everything and take `SplitInsert` — whose body
(`splitStep`, then the recursive `Insert`) is inlined here so that the
recursion is a single structural recursion on `fuel`.  The `fuel`
argument bounds the `Insert`/`SplitInsert` recursion (the C++ recurses
without bound; every run the claims evaluate terminates within the
supplied fuel). -/
def insertOp : Nat → HashTable → Nat → Nat → Except String (Bool × HashTable)
  | 0, _, _, _ => .error "Insert: recursion fuel exhausted"
  | fuel + 1, t, k, v => do
      let (dir, t₁) ← fetchDirectoryPage t
      let pid := dirPid dir (t₁.hashFn k &&& globalDepthMask dir)
      let (pd, bp₁) ← fetchPage t₁.bp pid
      let bucket ← asBucket pd
      if !bucketIsFull bucket then
        let (hasInsert, bucket') := bucketInsert bucket k v
        let bp₂ := writePage bp₁ pid (.bucket bucket')
        let (u1, bp₃) := unpinPage bp₂ pid true
        let _ ← assertE u1 "Insert: unpin bucket"
        let (u2, bp₄) := unpinPage bp₃ dir.pageId false
        let _ ← assertE u2 "Insert: unpin directory"
        pure (hasInsert, { t₁ with bp := bp₄ })
      else
        let (u1, bp₂) := unpinPage bp₁ pid false
        let _ ← assertE u1 "Insert: unpin bucket (full)"
        let (u2, bp₃) := unpinPage bp₂ dir.pageId false
        let _ ← assertE u2 "Insert: unpin directory (full)"
        match ← splitStep { t₁ with bp := bp₃ } k with
        | .noRoom t' => pure (false, t')
        | .didSplit t' => insertOp fuel t' k v

/-- `HASH_TABLE_TYPE::SplitInsert` as a named entry point: the
structural step, then the recursive `Insert` (repeated splits may
occur); `insertOp` inlines exactly this body in its full-bucket
branch. -/
def splitInsertOp (fuel : Nat) (t : HashTable) (k v : Nat) : Except String (Bool × HashTable) := do
  match ← splitStep t k with
  | .noRoom t' => pure (false, t')
  | .didSplit t' => insertOp fuel t' k v

/-- The repointing loop of `Merge(bucket_index)` (lines 362–368): every
slot whose page id is the deleted bucket's or the image's is pointed at
the image's page id with the image's (current) local depth.  The
structural counter `size + 1` covers the `size` iterations of
`for (i = 0; i < size; ++i)`. -/
def mergeRepointGo : Nat → DirPage → Nat → Nat → Nat → Nat → Nat → DirPage
  | 0, dir, _, _, _, _, _ => dir
  | fuel + 1, dir, oldPid, splitPid, splitIdx, size, i =>
      if i < size then
        if dirPid dir i = oldPid ∨ dirPid dir i = splitPid then
          let dirA := dirSetBucketPageId dir i splitPid
          mergeRepointGo fuel (dirSetLocalDepth dirA i (dirLd dirA splitIdx))
            oldPid splitPid splitIdx size (i + 1)
        else
          mergeRepointGo fuel dir oldPid splitPid splitIdx size (i + 1)
      else dir

def mergeRepointLoop (dir : DirPage) (oldPid splitPid splitIdx size i : Nat) : DirPage :=
  mergeRepointGo (size + 1) dir oldPid splitPid splitIdx size i

/-- `HASH_TABLE_TYPE::Merge(transaction, bucket_index)` (lines 320–376),
the overload `Remove` invokes.  NOTE the source's line 341 calls
`FetchBucketPage(bucket_index)` — the directory SLOT INDEX — instead of
`FetchBucketPage(bucket_page_id)`; the model reproduces this
faithfully. -/
def mergeIdx (t : HashTable) (idx : Nat) : Except String HashTable := do
  let (dir, t₁) ← fetchDirectoryPage t
  let bucketPid := dirPid dir idx
  let splitIdx := splitImageIdx dir idx
  let bucketLd := dirLd dir idx
  if bucketLd = 0 then
    let (u, bp₁) := unpinPage t₁.bp dir.pageId false
    let _ ← assertE u "Merge: unpin directory (depth 0)"
    pure { t₁ with bp := bp₁ }
  else if bucketLd ≠ dirLd dir splitIdx then
    let (u, bp₁) := unpinPage t₁.bp dir.pageId false
    let _ ← assertE u "Merge: unpin directory (depth mismatch)"
    pure { t₁ with bp := bp₁ }
  else do
    let (pd, bp₁) ← fetchPage t₁.bp idx
    let bucket ← asBucket pd
    if !bucketIsEmpty bucket then
      let (u1, bp₂) := unpinPage bp₁ bucketPid false
      let _ ← assertE u1 "Merge: unpin bucket"
      let (u2, bp₃) := unpinPage bp₂ dir.pageId false
      let _ ← assertE u2 "Merge: unpin directory (non-empty)"
      pure { t₁ with bp := bp₃ }
    else
      let (u1, bp₂) := unpinPage bp₁ bucketPid false
      let _ ← assertE u1 "Merge: unpin empty bucket"
      let (del, bp₃) := deletePage bp₂ bucketPid
      let _ ← assertE del "Merge: delete bucket page"
      let splitPid := dirPid dir splitIdx
      let dir₃ := decrLocalDepth (decrLocalDepth (dirSetBucketPageId dir idx splitPid) idx) splitIdx
      let _ ← assertE (dirLd dir₃ idx == dirLd dir₃ splitIdx) "Merge: depths differ"
      let dir₄ := mergeRepointLoop dir₃ bucketPid splitPid splitIdx (dirSize dir₃) 0
      let dir₅ := shrinkLoop dir₄.globalDepth dir₄
      let bp₄ := writePage bp₃ dir.pageId (.dir dir₅)
      let (u2, bp₅) := unpinPage bp₄ dir.pageId true
      let _ ← assertE u2 "Merge: unpin directory (merged)"
      pure { t₁ with bp := bp₅ }

/-- `HASH_TABLE_TYPE::Remove`: clear the pair in the target bucket; on
the absent-pair path the source returns WITHOUT unpinning either page
(the C6 leak, reproduced faithfully); on success unpin both dirty and
merge if the bucket became empty. -/
def removeOp (t : HashTable) (k v : Nat) : Except String (Bool × HashTable) := do
  let (dir, t₁) ← fetchDirectoryPage t
  let idx := t₁.hashFn k &&& globalDepthMask dir
  let pid := dirPid dir idx
  let (pd, bp₁) ← fetchPage t₁.bp pid
  let bucket ← asBucket pd
  let (hasRemove, bucket') := bucketRemove bucket k v
  if !hasRemove then
    pure (false, { t₁ with bp := bp₁ })
  else
    let isEmptyNow := bucketIsEmpty bucket'
    let bp₂ := writePage bp₁ pid (.bucket bucket')
    let (u1, bp₃) := unpinPage bp₂ dir.pageId true
    let _ ← assertE u1 "Remove: unpin directory"
    let (u2, bp₄) := unpinPage bp₃ pid true
    let _ ← assertE u2 "Remove: unpin bucket"
    if isEmptyNow then do
      let t₂ ← mergeIdx { t₁ with bp := bp₄ } idx
      pure (true, t₂)
    else
      pure (true, { t₁ with bp := bp₄ })

/-- A client-visible table operation (C1 quantifies over sequences of
these). -/
inductive TableOp where
  | insert (k v : Nat)
  | remove (k v : Nat)
deriving DecidableEq, Repr

def runOp (fuel : Nat) (t : HashTable) : TableOp → Except String HashTable
  | .insert k v => do pure (← insertOp fuel t k v).2
  | .remove k v => do pure (← removeOp t k v).2

/-- Run a sequence of table operations. -/
def runSeq (fuel : Nat) : HashTable → List TableOp → Except String HashTable
  | t, [] => .ok t
  | t, op :: ops => do runSeq fuel (← runOp fuel t op) ops

end BusTub

namespace BusTub

/-- The empty table of the C1 failing input: `BUCKET_ARRAY_SIZE = 1`
(the bucket size is a compile-time constant; the claim quantifies over
every instantiation) and the identity hash. -/
def c1s0 : HashTable := emptyTable 1 (fun k => k)

/-- The C1 failing input: the second insert forces a split (global
depth 1, slot 0 → old bucket page 1 holding (0,0), slot 1 → new bucket
page 2 holding (1,0)); removing `(1,0)` then empties slot 1's bucket
and triggers `Merge(bucket_index = 1)`. -/
def c1Ops : List TableOp := [.insert 0 0, .insert 1 0, .remove 1 0]

/-- C1 failing-input evaluation: after the two inserts `GetValue(1)`
returns exactly the still-present multiset `{0}`, but `Remove(1,0)` —
which empties slot 1's bucket (page 2) and triggers
`Merge(bucket_index = 1)` — faults: the merge fetches PAGE 1 (the page
whose id equals the slot index — the other, non-empty bucket) instead
of the empty bucket's page 2, concludes the bucket is non-empty, and
its `assert(UnpinPage(bucket_page_id))` then fails because page 2 was
never pinned.  So no state in which `GetValue(1)` returns the required
(empty) multiset is ever reached, although every merge precondition of
the claim holds for slot 1. -/
theorem C1_remove_sequence_faults_in_merge :
    (match runSeq 8 c1s0 [.insert 0 0, .insert 1 0] with
      | .ok t =>
          match getValueOp t 1 with
          | .ok (vals, _) => some vals
          | .error _ => none
      | .error _ => none) = some [0]
      ∧ runSeq 8 c1s0 c1Ops = .error "Merge: unpin bucket" :=
  ⟨rfl, rfl⟩

/-- The initialized table of the C5 failing input: global depth 1,
slot 0 → bucket page 1 holding (0,0) with local depth 1, slot 1 →
bucket page 2, EMPTY, with local depth 1; directory is page 0; nothing
pinned.  (This is precisely the state `Remove` hands to
`Merge(bucket_index = 1)` after deleting slot 1's last pair.) -/
def c5Table : HashTable :=
  ⟨⟨[(2, .bucket [⟨true, false, 1, 0⟩]),
     (1, .bucket [⟨true, true, 0, 0⟩]),
     (0, .dir ⟨0, 1, [1, 1], [1, 2]⟩)],
    [0, 0, 0], [true, true, true], 3⟩,
   some 0, 1, fun k => k⟩

/-- C5 failing input: at `c5Table` all three merge preconditions of the
claim hold for slot 1 — positive local depth, equal local depth of the
split image (slot 0), and an empty bucket — yet `Merge(1)` changes
nothing: because line 341 fetches the page whose id equals the SLOT
INDEX (page 1, the split image's non-empty bucket) instead of
`bucket_page_id[1] = 2`, it takes the "bucket not empty" branch, where
`assert(UnpinPage(2, false))` fails since page 2 was never pinned (the
debug build aborts; with assertions compiled out the function would
simply return without merging). -/
theorem C5_merge_checks_wrong_page :
    (0 < dirLd ⟨0, 1, [1, 1], [1, 2]⟩ 1
        ∧ dirLd ⟨0, 1, [1, 1], [1, 2]⟩ 1
            = dirLd ⟨0, 1, [1, 1], [1, 2]⟩ (splitImageIdx ⟨0, 1, [1, 1], [1, 2]⟩ 1))
      ∧ (match poolLookup c5Table.bp.pages (dirPid ⟨0, 1, [1, 1], [1, 2]⟩ 1) with
          | some (.bucket b) => bucketIsEmpty b
          | _ => false) = true
      ∧ mergeIdx c5Table 1 = .error "Merge: unpin bucket" :=
  ⟨⟨by decide, by decide⟩, rfl, rfl⟩

/-- The initialized table of the C6 failing input: one bucket (page 1)
holding (0,0), directory page 0, nothing pinned. -/
def c6Table : HashTable :=
  ⟨⟨[(1, .bucket [⟨true, true, 0, 0⟩]),
     (0, .dir ⟨0, 0, [], [1]⟩)],
    [0, 0], [true, true], 2⟩,
   some 0, 1, fun k => k⟩

/-- C6 failing input: `Remove(1, 0)` — a pair that is absent — returns
false via the early-return path that skips both `UnpinPage` calls, so
the directory page (0) and the bucket page (1) are left with pin count
1 after the operation, where the claim requires every fetched page to
be unpinned before return.  By contrast, removing the present pair
(0,0) returns through the normal path and leaves both pins at 0. -/
theorem C6_remove_absent_leaks_pins :
    (match removeOp c6Table 1 0 with
      | .ok (b, t) => some (b, pinOf t.bp 0, pinOf t.bp 1)
      | .error _ => none) = some (false, 1, 1)
      ∧ (match removeOp c6Table 0 0 with
          | .ok (b, t) => some (b, pinOf t.bp 0, pinOf t.bp 1)
          | .error _ => none) = some (true, 0, 0) :=
  ⟨rfl, rfl⟩

/-- The directory of the C4 counterexample: global depth 3, every slot
with local depth 1; even slots → bucket page 1 (FULL, four even keys),
odd slots → bucket page 2 (empty).  `BUCKET_ARRAY_SIZE = 4`. -/
def c4Table : HashTable :=
  ⟨⟨[(2, .bucket (zeroBucket 4)),
     (1, .bucket [⟨true, true, 0, 0⟩, ⟨true, true, 2, 0⟩, ⟨true, true, 4, 0⟩, ⟨true, true, 6, 0⟩]),
     (0, .dir ⟨0, 3, [1, 1, 1, 1, 1, 1, 1, 1], [1, 2, 1, 2, 1, 2, 1, 2]⟩)],
    [0, 0, 0], [false, false, false], 3⟩,
   some 0, 4, fun k => k⟩

/-- C4 counterexample: splitting slot 0 (local depth d = 1, global
depth 3) on key 8 leaves the split slot at depth d+1 = 2, but the
split-image slot 2 = 0 XOR (1 << 1) gets local depth 3 — the GLOBAL
depth — not d+1 = 2 as the claim states (its bucket_page_id is the new
page 3 as claimed). -/
theorem C4_image_depth_counterexample :
    dirLd ⟨0, 3, [1, 1, 1, 1, 1, 1, 1, 1], [1, 2, 1, 2, 1, 2, 1, 2]⟩ 0 = 1
      ∧ (match splitStep c4Table 8 with
          | .ok (.didSplit t') =>
              match poolLookup t'.bp.pages 0 with
              | some (.dir dd) => some (dirLd dd 0, dirLd dd 2, dirPid dd 2)
              | _ => none
          | _ => none) = some (2, 3, 3)
      ∧ (1 + 1 : Nat) ≠ 3 :=
  ⟨by decide, rfl, by decide⟩

end BusTub

namespace BusTub

theorem getD_listSetD_self (dflt : α) (i : Nat) (l : List α) (v : α) :
    (listSetD dflt l i v).getD i dflt = v := by
  induction i generalizing l with
  | zero => cases l <;> rfl
  | succ j ih =>
      cases l with
      | nil =>
          show (dflt :: listSetD dflt [] j v).getD (j + 1) dflt = v
          simpa [List.getD_cons_succ] using ih []
      | cons x rest =>
          show (x :: listSetD dflt rest j v).getD (j + 1) dflt = v
          simpa [List.getD_cons_succ] using ih rest

theorem getD_listSetD_ne (dflt : α) (i j : Nat) (l : List α) (v : α) (h : j ≠ i) :
    (listSetD dflt l i v).getD j dflt = l.getD j dflt := by
  induction i generalizing l j with
  | zero =>
      cases l with
      | nil =>
          cases j with
          | zero => exact absurd rfl h
          | succ m => simp [listSetD, List.getD_cons_succ, List.getD_nil]
      | cons x rest =>
          cases j with
          | zero => exact absurd rfl h
          | succ m => rfl
  | succ n ih =>
      cases l with
      | nil =>
          cases j with
          | zero => rfl
          | succ m =>
              show (dflt :: listSetD dflt [] n v).getD (m + 1) dflt = ([] : List α).getD (m + 1) dflt
              have := ih m [] (fun hc => h (by omega))
              simpa [List.getD_cons_succ, List.getD_nil] using this
      | cons x rest =>
          cases j with
          | zero => rfl
          | succ m =>
              show (x :: listSetD dflt rest n v).getD (m + 1) dflt = (x :: rest).getD (m + 1) dflt
              have := ih m rest (fun hc => h (by omega))
              simpa [List.getD_cons_succ] using this

theorem dirLd_setPid (d : DirPage) (i p j : Nat) :
    dirLd (dirSetBucketPageId d i p) j = dirLd d j := rfl

theorem dirPid_setLd (d : DirPage) (i v j : Nat) :
    dirPid (dirSetLocalDepth d i v) j = dirPid d j := rfl

theorem dirLd_setLd_self (d : DirPage) (i v : Nat) :
    dirLd (dirSetLocalDepth d i v) i = v :=
  getD_listSetD_self 0 i d.localDepth v

theorem dirLd_setLd_ne (d : DirPage) (i v j : Nat) (h : j ≠ i) :
    dirLd (dirSetLocalDepth d i v) j = dirLd d j :=
  getD_listSetD_ne 0 i j d.localDepth v h

theorem dirPid_setPid_self (d : DirPage) (i p : Nat) :
    dirPid (dirSetBucketPageId d i p) i = p :=
  getD_listSetD_self 0 i d.bucketPageId p

theorem dirPid_setPid_ne (d : DirPage) (i p j : Nat) (h : j ≠ i) :
    dirPid (dirSetBucketPageId d i p) j = dirPid d j :=
  getD_listSetD_ne 0 i j d.bucketPageId p h

theorem inheritGo_getD_lt (sz : Nat) (count : Nat) (l : List Nat) (j : Nat) (hj : j < sz) :
    (inheritGo sz count l).getD j 0 = l.getD j 0 := by
  induction count generalizing l with
  | zero => rfl
  | succ c ih =>
      show (inheritGo sz c (listSetD 0 l (sz + c) (l.getD c 0))).getD j 0 = l.getD j 0
      rw [ih]
      exact getD_listSetD_ne 0 (sz + c) j l _ (by omega)

theorem mod_sub_pow (i e : Nat) (h : 2 ^ e ≤ i) : (i - 2 ^ e) % 2 ^ e = i % 2 ^ e := by
  conv_rhs => rw [← Nat.sub_add_cancel h, Nat.add_mod_right]

end BusTub

namespace BusTub

theorem aliasDownGo_untouched (fuel : Nat) : ∀ (dir : DirPage) (refIdx pid e i j : Nat),
    j % 2 ^ e ≠ i % 2 ^ e →
    dirLd (aliasDownGo fuel dir refIdx pid e i) j = dirLd dir j ∧
    dirPid (aliasDownGo fuel dir refIdx pid e i) j = dirPid dir j := by
  induction fuel with
  | zero => intro dir refIdx pid e i j _; exact ⟨rfl, rfl⟩
  | succ f ih =>
      intro dir refIdx pid e i j hmod
      have hji : j ≠ i := fun hc => hmod (by rw [hc])
      simp only [aliasDownGo]
      by_cases hc : 2 ^ e ≤ i
      · rw [if_pos hc]
        have hmod' : j % 2 ^ e ≠ (i - 2 ^ e) % 2 ^ e := by
          rw [mod_sub_pow i e hc]; exact hmod
        obtain ⟨h1, h2⟩ := ih _ refIdx pid e (i - 2 ^ e) j hmod'
        refine ⟨?_, ?_⟩
        · rw [h1, dirLd_setPid, dirLd_setLd_ne _ _ _ _ hji]
        · rw [h2, dirPid_setPid_ne _ _ _ _ hji, dirPid_setLd]
      · rw [if_neg hc]; exact ⟨rfl, rfl⟩

theorem aliasDownGo_ld_ref (fuel : Nat) : ∀ (dir : DirPage) (refIdx pid e i : Nat),
    dirLd (aliasDownGo fuel dir refIdx pid e i) refIdx = dirLd dir refIdx := by
  induction fuel with
  | zero => intro dir refIdx pid e i; rfl
  | succ f ih =>
      intro dir refIdx pid e i
      simp only [aliasDownGo]
      by_cases hc : 2 ^ e ≤ i
      · rw [if_pos hc, ih]
        by_cases hri : refIdx = i
        · subst hri; rw [dirLd_setPid, dirLd_setLd_self]
        · rw [dirLd_setPid, dirLd_setLd_ne _ _ _ _ hri]
      · rw [if_neg hc]

theorem aliasDownGo_pid_keep (fuel : Nat) : ∀ (dir : DirPage) (refIdx pid e i j : Nat),
    dirPid dir j = pid →
    dirPid (aliasDownGo fuel dir refIdx pid e i) j = pid := by
  induction fuel with
  | zero => intro dir refIdx pid e i j h; exact h
  | succ f ih =>
      intro dir refIdx pid e i j h
      simp only [aliasDownGo]
      by_cases hc : 2 ^ e ≤ i
      · rw [if_pos hc]
        refine ih _ refIdx pid e (i - 2 ^ e) j ?_
        by_cases hji : j = i
        · subst hji; rw [dirPid_setPid_self]
        · rw [dirPid_setPid_ne _ _ _ _ hji, dirPid_setLd]; exact h
      · rw [if_neg hc]; exact h

theorem aliasUpGo_untouched (fuel : Nat) : ∀ (dir : DirPage) (refIdx pid e size i j : Nat),
    j % 2 ^ e ≠ i % 2 ^ e →
    dirLd (aliasUpGo fuel dir refIdx pid e size i) j = dirLd dir j ∧
    dirPid (aliasUpGo fuel dir refIdx pid e size i) j = dirPid dir j := by
  induction fuel with
  | zero => intro dir refIdx pid e size i j _; exact ⟨rfl, rfl⟩
  | succ f ih =>
      intro dir refIdx pid e size i j hmod
      have hji : j ≠ i := fun hc => hmod (by rw [hc])
      simp only [aliasUpGo]
      by_cases hc : i < size
      · rw [if_pos hc]
        have hmod' : j % 2 ^ e ≠ (i + 2 ^ e) % 2 ^ e := by
          rw [Nat.add_mod_right]; exact hmod
        obtain ⟨h1, h2⟩ := ih _ refIdx pid e size (i + 2 ^ e) j hmod'
        refine ⟨?_, ?_⟩
        · rw [h1, dirLd_setPid, dirLd_setLd_ne _ _ _ _ hji]
        · rw [h2, dirPid_setPid_ne _ _ _ _ hji, dirPid_setLd]
      · rw [if_neg hc]; exact ⟨rfl, rfl⟩

theorem aliasUpGo_ld_ref (fuel : Nat) : ∀ (dir : DirPage) (refIdx pid e size i : Nat),
    dirLd (aliasUpGo fuel dir refIdx pid e size i) refIdx = dirLd dir refIdx := by
  induction fuel with
  | zero => intro dir refIdx pid e size i; rfl
  | succ f ih =>
      intro dir refIdx pid e size i
      simp only [aliasUpGo]
      by_cases hc : i < size
      · rw [if_pos hc, ih]
        by_cases hri : refIdx = i
        · subst hri; rw [dirLd_setPid, dirLd_setLd_self]
        · rw [dirLd_setPid, dirLd_setLd_ne _ _ _ _ hri]
      · rw [if_neg hc]

theorem aliasUpGo_pid_keep (fuel : Nat) : ∀ (dir : DirPage) (refIdx pid e size i j : Nat),
    dirPid dir j = pid →
    dirPid (aliasUpGo fuel dir refIdx pid e size i) j = pid := by
  induction fuel with
  | zero => intro dir refIdx pid e size i j h; exact h
  | succ f ih =>
      intro dir refIdx pid e size i j h
      simp only [aliasUpGo]
      by_cases hc : i < size
      · rw [if_pos hc]
        refine ih _ refIdx pid e size (i + 2 ^ e) j ?_
        by_cases hji : j = i
        · subst hji; rw [dirPid_setPid_self]
        · rw [dirPid_setPid_ne _ _ _ _ hji, dirPid_setLd]; exact h
      · rw [if_neg hc]; exact h

end BusTub

namespace BusTub

theorem xor_pow_mod_ne (s d : Nat) : s % 2 ^ (d + 1) ≠ (s ^^^ 2 ^ d) % 2 ^ (d + 1) := by
  intro hcontra
  have hb : (s % 2 ^ (d + 1)).testBit d = ((s ^^^ 2 ^ d) % 2 ^ (d + 1)).testBit d := by
    rw [hcontra]
  rw [Nat.testBit_mod_two_pow, Nat.testBit_mod_two_pow, Nat.testBit_xor,
      Nat.testBit_two_pow_self] at hb
  simp [Nat.lt_succ_self] at hb

theorem self_ne_xor_pow (s d : Nat) : s ≠ s ^^^ 2 ^ d := by
  intro hc
  exact xor_pow_mod_ne s d (by rw [← hc])

theorem splitDirTwo_ld_self (dir : DirPage) (h : Nat) :
    dirLd (splitDirTwo dir h) (h &&& globalDepthMask dir)
      = dirLd dir (h &&& globalDepthMask dir) + 1 := by
  have hpos := Nat.two_pow_pos dir.globalDepth
  have hlt : h &&& globalDepthMask dir < 2 ^ dir.globalDepth := by
    have h1 : h &&& globalDepthMask dir ≤ globalDepthMask dir := Nat.and_le_right
    have h2 : globalDepthMask dir = 2 ^ dir.globalDepth - 1 := rfl
    omega
  simp only [splitDirTwo, incrLocalDepth]
  rw [dirLd_setLd_self]
  congr 1
  split
  · simp only [incrGlobalDepth, dirLd]
    exact inheritGo_getD_lt _ _ _ _ hlt
  · rfl

theorem splitDirTwo_gd (dir : DirPage) (h : Nat) :
    (splitDirTwo dir h).globalDepth
      = if dirLd dir (h &&& globalDepthMask dir) = dir.globalDepth
          then dir.globalDepth + 1 else dir.globalDepth := by
  simp only [splitDirTwo, incrLocalDepth, dirSetLocalDepth]
  split <;> rfl

theorem splitImageIdx_two (dir : DirPage) (h : Nat) :
    splitImageIdx (splitDirTwo dir h) (h &&& globalDepthMask dir)
      = (h &&& globalDepthMask dir) ^^^ 2 ^ dirLd dir (h &&& globalDepthMask dir) := by
  simp only [splitImageIdx]
  rw [splitDirTwo_ld_self, Nat.add_sub_cancel, Nat.one_shiftLeft]

theorem splitDirPre_ld_split (dir : DirPage) (h newPid : Nat) :
    dirLd (splitDirPre dir h newPid) (h &&& globalDepthMask dir)
      = dirLd dir (h &&& globalDepthMask dir) + 1 := by
  have hne : h &&& globalDepthMask dir
      ≠ splitImageIdx (splitDirTwo dir h) (h &&& globalDepthMask dir) := by
    rw [splitImageIdx_two dir h]
    exact self_ne_xor_pow _ _
  simp only [splitDirPre]
  rw [dirLd_setPid, dirLd_setLd_ne _ _ _ _ hne, splitDirTwo_ld_self]

theorem splitDirPre_ld_image (dir : DirPage) (h newPid : Nat) :
    dirLd (splitDirPre dir h newPid)
        (splitImageIdx (splitDirTwo dir h) (h &&& globalDepthMask dir))
      = (splitDirTwo dir h).globalDepth := by
  simp only [splitDirPre]
  rw [dirLd_setPid, dirLd_setLd_self]

theorem splitDirPre_pid_image (dir : DirPage) (h newPid : Nat) :
    dirPid (splitDirPre dir h newPid)
        (splitImageIdx (splitDirTwo dir h) (h &&& globalDepthMask dir))
      = newPid := by
  simp only [splitDirPre]
  rw [dirPid_setPid_self]

theorem splitDirFinal_facts (dir : DirPage) (h newPid sbi d nbi : Nat)
    (hsbi : sbi = h &&& globalDepthMask dir)
    (hd : d = dirLd dir sbi)
    (hnbi : nbi = sbi ^^^ 2 ^ d) :
    dirLd (splitDirFinal dir h newPid) sbi = d + 1
      ∧ dirLd (splitDirFinal dir h newPid) nbi
          = (if d = dir.globalDepth then dir.globalDepth + 1 else dir.globalDepth)
      ∧ dirPid (splitDirFinal dir h newPid) nbi = newPid := by
  have hres : sbi % 2 ^ (d + 1) ≠ nbi % 2 ^ (d + 1) := by
    rw [hnbi]; exact xor_pow_mod_ne sbi d
  have hres' : nbi % 2 ^ (d + 1) ≠ sbi % 2 ^ (d + 1) := Ne.symm hres
  have hnb : splitImageIdx (splitDirTwo dir h) sbi = nbi := by
    rw [hsbi, splitImageIdx_two dir h, ← hsbi, ← hd, hnbi]
  have hE : dirLd (splitDirPre dir h newPid) sbi = d + 1 := by
    rw [hsbi, splitDirPre_ld_split dir h newPid, ← hsbi, ← hd]
  have hL2 : dirLd (splitDirPre dir h newPid) nbi
      = (if d = dir.globalDepth then dir.globalDepth + 1 else dir.globalDepth) := by
    rw [← hnb, hsbi, splitDirPre_ld_image dir h newPid, splitDirTwo_gd dir h, ← hsbi, ← hd]
  have hP2 : dirPid (splitDirPre dir h newPid) nbi = newPid := by
    rw [← hnb, hsbi, splitDirPre_pid_image]
  have heq : splitDirFinal dir h newPid =
      aliasUp
        (aliasDown
          (aliasUp
            (aliasDown (splitDirPre dir h newPid) (h &&& globalDepthMask dir)
              (dirPid (splitDirTwo dir h) (h &&& globalDepthMask (splitDirTwo dir h)))
              (dirLd (splitDirPre dir h newPid) (h &&& globalDepthMask dir))
              (h &&& globalDepthMask dir))
            (h &&& globalDepthMask dir)
            (dirPid (splitDirTwo dir h) (h &&& globalDepthMask (splitDirTwo dir h)))
            (dirLd (splitDirPre dir h newPid) (h &&& globalDepthMask dir))
            (dirSize (aliasDown (splitDirPre dir h newPid) (h &&& globalDepthMask dir)
              (dirPid (splitDirTwo dir h) (h &&& globalDepthMask (splitDirTwo dir h)))
              (dirLd (splitDirPre dir h newPid) (h &&& globalDepthMask dir))
              (h &&& globalDepthMask dir)))
            (h &&& globalDepthMask dir))
          (splitImageIdx (splitDirTwo dir h) (h &&& globalDepthMask dir)) newPid
          (dirLd (splitDirPre dir h newPid) (h &&& globalDepthMask dir))
          (splitImageIdx (splitDirTwo dir h) (h &&& globalDepthMask dir)))
        (splitImageIdx (splitDirTwo dir h) (h &&& globalDepthMask dir)) newPid
        (dirLd (splitDirPre dir h newPid) (h &&& globalDepthMask dir))
        (dirSize (aliasDown
          (aliasUp
            (aliasDown (splitDirPre dir h newPid) (h &&& globalDepthMask dir)
              (dirPid (splitDirTwo dir h) (h &&& globalDepthMask (splitDirTwo dir h)))
              (dirLd (splitDirPre dir h newPid) (h &&& globalDepthMask dir))
              (h &&& globalDepthMask dir))
            (h &&& globalDepthMask dir)
            (dirPid (splitDirTwo dir h) (h &&& globalDepthMask (splitDirTwo dir h)))
            (dirLd (splitDirPre dir h newPid) (h &&& globalDepthMask dir))
            (dirSize (aliasDown (splitDirPre dir h newPid) (h &&& globalDepthMask dir)
              (dirPid (splitDirTwo dir h) (h &&& globalDepthMask (splitDirTwo dir h)))
              (dirLd (splitDirPre dir h newPid) (h &&& globalDepthMask dir))
              (h &&& globalDepthMask dir)))
            (h &&& globalDepthMask dir))
          (splitImageIdx (splitDirTwo dir h) (h &&& globalDepthMask dir)) newPid
          (dirLd (splitDirPre dir h newPid) (h &&& globalDepthMask dir))
          (splitImageIdx (splitDirTwo dir h) (h &&& globalDepthMask dir))))
        (splitImageIdx (splitDirTwo dir h) (h &&& globalDepthMask dir)) := rfl
  rw [← hsbi] at heq
  rw [hnb] at heq
  rw [hE] at heq
  rw [heq]
  simp only [aliasDown, aliasUp]
  refine ⟨?_, ?_, ?_⟩
  · rw [(aliasUpGo_untouched _ _ _ _ _ _ _ _ hres).1,
        (aliasDownGo_untouched _ _ _ _ _ _ _ hres).1,
        aliasUpGo_ld_ref, aliasDownGo_ld_ref]
    exact hE
  · rw [aliasUpGo_ld_ref, aliasDownGo_ld_ref,
        (aliasUpGo_untouched _ _ _ _ _ _ _ _ hres').1,
        (aliasDownGo_untouched _ _ _ _ _ _ _ hres').1]
    exact hL2
  · refine aliasUpGo_pid_keep _ _ _ _ _ _ _ _ (aliasDownGo_pid_keep _ _ _ _ _ _ _ ?_)
    rw [(aliasUpGo_untouched _ _ _ _ _ _ _ _ hres').2,
        (aliasDownGo_untouched _ _ _ _ _ _ _ hres').2]
    exact hP2

/-- C4: corrected form of the split-image claim. When `SplitInsert`
performs its directory surgery (`splitDirFinal`, lines 170–221) on the
slot `split_index = Hash(key) & GetGlobalDepthMask()` with old local
depth `d`, then afterwards the split slot's local depth is `d + 1` and
the split-image slot `split_index XOR (1 << d)` holds the new bucket's
page id — but its local depth is set to the directory's GLOBAL depth
after the possible doubling (line 190 uses `GetGlobalDepth()`), not to
`d + 1` as the spec states; the two agree only when `d + 1` equals that
global depth. -/
theorem C4_split_image_depth_amended (dir : DirPage) (h newPid : Nat) :
    dirLd (splitDirFinal dir h newPid) (h &&& globalDepthMask dir)
        = dirLd dir (h &&& globalDepthMask dir) + 1
      ∧ dirLd (splitDirFinal dir h newPid)
            ((h &&& globalDepthMask dir) ^^^ 2 ^ dirLd dir (h &&& globalDepthMask dir))
          = (if dirLd dir (h &&& globalDepthMask dir) = dir.globalDepth
              then dir.globalDepth + 1 else dir.globalDepth)
      ∧ dirPid (splitDirFinal dir h newPid)
            ((h &&& globalDepthMask dir) ^^^ 2 ^ dirLd dir (h &&& globalDepthMask dir))
          = newPid :=
  splitDirFinal_facts dir h newPid _ _ _ rfl rfl rfl

end BusTub
